import Mathlib

/-!
Verification development for the leaderboard engine in
`server/core_leaderboard.go` (Nakama).  The Go functions are shallowly
embedded as Lean definitions: the relational store becomes a list of rows,
SQL queries become filter/sort/take over that list, and the `gob` + base64
cursor codec is modelled as an injective, fallible token codec.  Machine
integers (`int64`) are modelled as `Int`; overflow is never claim-relevant
here because all operations are also subject to the store's own range
checks.
-/

namespace Nakama

/-- Error values mirroring the package-level error variables
`ErrLeaderboardNotFound`, `ErrLeaderboardAuthoritative`,
`ErrLeaderboardInvalidCursor` and `ErrInvalidOperator`. -/
inductive Err where
  | leaderboardNotFound
  | leaderboardAuthoritative
  | invalidCursor
  | invalidOperator
deriving DecidableEq

/-- The pagination cursor `leaderboardRecordListCursor`: direction hint plus
the identifying fields of the boundary row. -/
structure Cursor where
  IsNext : Bool
  LeaderboardId : String
  ExpiryTime : Int
  Score : Int
  Subscore : Int
  OwnerId : String
  Rank : Int
deriving DecidableEq

/-- Zigzag embedding of a signed integer into a natural number, modelling
gob's signed-integer wire encoding. -/
def intToNat (i : Int) : Nat :=
  if 0 ≤ i then 2 * i.toNat else 2 * (-i).toNat - 1

/-- Inverse of `intToNat`. -/
def natToInt (n : Nat) : Int :=
  if n % 2 = 0 then ((n / 2 : Nat) : Int) else -(((n + 1) / 2 : Nat) : Int)

theorem natToInt_intToNat (i : Int) : natToInt (intToNat i) = i := by
  rcases le_or_lt 0 i with h | h
  · have h1 : intToNat i = 2 * i.toNat := by unfold intToNat; rw [if_pos h]
    rw [h1]
    unfold natToInt
    rw [if_pos (by omega)]
    omega
  · have h1 : intToNat i = 2 * (-i).toNat - 1 := by
      unfold intToNat; rw [if_neg (by omega)]
    rw [h1]
    unfold natToInt
    have hn : 1 ≤ (-i).toNat := by omega
    rw [if_neg (by omega)]
    omega

/-- Tokens of one string field in the modelled gob stream: the length
followed by the code points. -/
def strTokens (cs : List Char) : List Nat :=
  cs.length :: cs.map Char.toNat

/-- Modelled `gob` encoding of `leaderboardRecordListCursor`: a
self-describing token stream listing the seven exported fields in order. -/
def gobEncodeCursor (c : Cursor) : List Nat :=
  (if c.IsNext then 1 else 0) ::
    (strTokens c.LeaderboardId.data ++
      (intToNat c.ExpiryTime :: intToNat c.Score :: intToNat c.Subscore ::
        (strTokens c.OwnerId.data ++ [intToNat c.Rank])))

/-- Read `n` code points from the token stream (the payload of one string
field), failing when the stream is too short. -/
def readChars : Nat → List Nat → Option (List Char × List Nat)
  | 0, ts => some ([], ts)
  | _ + 1, [] => none
  | n + 1, t :: ts =>
    match readChars n ts with
    | none => none
    | some (cs, rest) => some (Char.ofNat t :: cs, rest)

/-- Modelled `gob` decoding of `leaderboardRecordListCursor`: parses
exactly the field set produced by `gobEncodeCursor` and fails on any
malformed or trailing data. -/
def gobDecodeCursor (ts : List Nat) : Option Cursor :=
  match ts with
  | [] => none
  | b :: ts1 =>
    if b ≤ 1 then
      match ts1 with
      | [] => none
      | n1 :: ts2 =>
        match readChars n1 ts2 with
        | none => none
        | some (lb, ts3) =>
          match ts3 with
          | e :: s :: ss :: n2 :: ts5 =>
            match readChars n2 ts5 with
            | none => none
            | some (ow, ts6) =>
              match ts6 with
              | [r] =>
                some { IsNext := decide (b = 1), LeaderboardId := String.mk lb,
                       ExpiryTime := natToInt e, Score := natToInt s,
                       Subscore := natToInt ss, OwnerId := String.mk ow,
                       Rank := natToInt r }
              | _ => none
          | _ => none
    else none

theorem readChars_encode (cs : List Char) (rest : List Nat) :
    readChars cs.length (cs.map Char.toNat ++ rest) = some (cs, rest) := by
  induction cs with
  | nil => rfl
  | cons c cs ih =>
    show (match readChars cs.length (cs.map Char.toNat ++ rest) with
      | none => none
      | some (cs2, rest2) => some (Char.ofNat c.toNat :: cs2, rest2)) = some (c :: cs, rest)
    rw [ih, Char.ofNat_toNat]

theorem gobDecodeCursor_encode (c : Cursor) :
    gobDecodeCursor (gobEncodeCursor c) = some c := by
  obtain ⟨isNext, ⟨lb⟩, exp, sc, ssc, ⟨ow⟩, rk⟩ := c
  have hlb := readChars_encode lb (intToNat exp :: intToNat sc :: intToNat ssc ::
      (ow.length :: (ow.map Char.toNat ++ [intToNat rk])))
  have how := readChars_encode ow [intToNat rk]
  cases isNext <;>
    simp [gobEncodeCursor, gobDecodeCursor, strTokens, hlb, how, natToInt_intToNat]

/-- Modelled `base64.URLEncoding.EncodeToString`: an injective URL-safe
text rendering of the token stream (each token `n` becomes `n` copies of
the letter a followed by the letter b). -/
def base64UrlEncode (ts : List Nat) : List Char :=
  ts.foldr (fun n acc => List.replicate n 'a' ++ 'b' :: acc) []

/-- Worker for `base64UrlDecode`: `k` counts the letters of the token being
read; any other character, or a truncated final token, is a decode error. -/
def base64UrlDecodeAux : List Char → Nat → Option (List Nat)
  | [], 0 => some []
  | [], _ + 1 => none
  | ch :: cs, k =>
    if ch = 'a' then base64UrlDecodeAux cs (k + 1)
    else if ch = 'b' then (base64UrlDecodeAux cs 0).map (fun l => k :: l)
    else none

/-- Modelled `base64.URLEncoding.DecodeString`: partial inverse of
`base64UrlEncode`, failing on text outside the encoding's image. -/
def base64UrlDecode (cs : List Char) : Option (List Nat) :=
  base64UrlDecodeAux cs 0

theorem base64UrlDecodeAux_cons_a (xs : List Char) (k : Nat) :
    base64UrlDecodeAux ('a' :: xs) k = base64UrlDecodeAux xs (k + 1) := rfl

theorem base64UrlDecodeAux_cons_b (xs : List Char) (k : Nat) :
    base64UrlDecodeAux ('b' :: xs) k
      = (base64UrlDecodeAux xs 0).map (fun l => k :: l) := rfl

theorem base64UrlDecodeAux_replicate (n k : Nat) (rest : List Char) :
    base64UrlDecodeAux (List.replicate n 'a' ++ 'b' :: rest) k
      = (base64UrlDecodeAux rest 0).map (fun l => (k + n) :: l) := by
  induction n generalizing k with
  | zero => rw [List.replicate_zero, List.nil_append, base64UrlDecodeAux_cons_b, Nat.add_zero]
  | succ n ih =>
    rw [List.replicate_succ, List.cons_append, base64UrlDecodeAux_cons_a, ih]
    have harith : k + 1 + n = k + (n + 1) := by omega
    rw [harith]

theorem base64UrlDecode_encode (ts : List Nat) :
    base64UrlDecode (base64UrlEncode ts) = some ts := by
  unfold base64UrlDecode
  induction ts with
  | nil => rfl
  | cons n ts ih =>
    show base64UrlDecodeAux (List.replicate n 'a' ++ 'b' :: base64UrlEncode ts) 0 = _
    rw [base64UrlDecodeAux_replicate]
    rw [show base64UrlDecodeAux (base64UrlEncode ts) 0 = some ts from ih]
    simp

/-- `marshalLeaderboardRecordsListCursor`: gob-encode the cursor, then
base64-URL-encode the bytes.  The Go error branch is dead for this struct
(gob never fails on it), so the model returns the string directly. -/
def marshalLeaderboardRecordsListCursor (cursor : Cursor) : String :=
  String.mk (base64UrlEncode (gobEncodeCursor cursor))

/-- `unmarshalLeaderboardRecordsListCursor`: empty strings mean "no
cursor"; otherwise transport decode, payload decode, and the
leaderboard-id and expiry binding checks each fail with `InvalidCursor`. -/
def unmarshalLeaderboardRecordsListCursor (leaderboardId : String)
    (expiryTime : Int) (cursor : String) : Except Err (Option Cursor) :=
  if cursor = "" then .ok none
  else
    match base64UrlDecode cursor.data with
    | none => .error .invalidCursor
    | some cb =>
      match gobDecodeCursor cb with
      | none => .error .invalidCursor
      | some incomingCursor =>
        if leaderboardId ≠ incomingCursor.LeaderboardId then .error .invalidCursor
        else if expiryTime ≠ incomingCursor.ExpiryTime then .error .invalidCursor
        else .ok (some incomingCursor)

theorem marshal_ne_empty (c : Cursor) : marshalLeaderboardRecordsListCursor c ≠ "" := by
  intro h
  have hd : base64UrlEncode (gobEncodeCursor c) = ([] : List Char) :=
    congrArg String.data h
  have hcons : base64UrlEncode (gobEncodeCursor c)
      = List.replicate (if c.IsNext then 1 else 0) 'a' ++
        ('b' :: base64UrlEncode
          (strTokens c.LeaderboardId.data ++
            (intToNat c.ExpiryTime :: intToNat c.Score :: intToNat c.Subscore ::
              (strTokens c.OwnerId.data ++ [intToNat c.Rank])))) := rfl
  rw [hcons] at hd
  have hlen := congrArg List.length hd
  simp only [List.length_append, List.length_cons, List.length_nil] at hlen
  omega

theorem marshal_data (c : Cursor) :
    (marshalLeaderboardRecordsListCursor c).data = base64UrlEncode (gobEncodeCursor c) := rfl

/-- Claim C7: encoding any cursor with `marshalLeaderboardRecordsListCursor`
and decoding the result under the cursor's own `LeaderboardId` and
`ExpiryTime` succeeds and returns an equal cursor. -/
theorem marshal_unmarshal_roundtrip (c : Cursor) :
    unmarshalLeaderboardRecordsListCursor c.LeaderboardId c.ExpiryTime
      (marshalLeaderboardRecordsListCursor c) = .ok (some c) := by
  unfold unmarshalLeaderboardRecordsListCursor
  rw [if_neg (marshal_ne_empty c), marshal_data, base64UrlDecode_encode]
  show (match gobDecodeCursor (gobEncodeCursor c) with
    | none => Except.error Err.invalidCursor
    | some incomingCursor =>
      if c.LeaderboardId ≠ incomingCursor.LeaderboardId then Except.error Err.invalidCursor
      else if c.ExpiryTime ≠ incomingCursor.ExpiryTime then Except.error Err.invalidCursor
      else Except.ok (some incomingCursor)) = Except.ok (some c)
  rw [gobDecodeCursor_encode]
  simp

/-- Claim C2: with resolved leaderboard id and expiry, decoding the empty
string yields no cursor and no error; a non-empty string fails with
`InvalidCursor` exactly when its transport decoding fails, its payload
cannot be parsed into the cursor field set, or the decoded cursor's
binding fields differ from the request's; in particular a cursor encoded
under a different `(leaderboard_id, expiry_time)` always fails. -/
theorem unmarshal_invalidCursor_characterization (leaderboardId : String)
    (expiryTime : Int) (s : String) :
    (s = "" →
      unmarshalLeaderboardRecordsListCursor leaderboardId expiryTime s = .ok none)
    ∧ (s ≠ "" → base64UrlDecode s.data = none →
      unmarshalLeaderboardRecordsListCursor leaderboardId expiryTime s
        = .error .invalidCursor)
    ∧ (∀ cb, s ≠ "" → base64UrlDecode s.data = some cb → gobDecodeCursor cb = none →
      unmarshalLeaderboardRecordsListCursor leaderboardId expiryTime s
        = .error .invalidCursor)
    ∧ (∀ cb c, s ≠ "" → base64UrlDecode s.data = some cb → gobDecodeCursor cb = some c →
      (unmarshalLeaderboardRecordsListCursor leaderboardId expiryTime s
          = .error .invalidCursor
        ↔ (leaderboardId ≠ c.LeaderboardId ∨ expiryTime ≠ c.ExpiryTime)))
    ∧ (∀ c : Cursor, leaderboardId ≠ c.LeaderboardId ∨ expiryTime ≠ c.ExpiryTime →
      unmarshalLeaderboardRecordsListCursor leaderboardId expiryTime
          (marshalLeaderboardRecordsListCursor c) = .error .invalidCursor) := by
  refine ⟨?_, ?_, ?_, ?_, ?_⟩
  · intro h
    unfold unmarshalLeaderboardRecordsListCursor
    rw [if_pos h]
  · intro h hb
    unfold unmarshalLeaderboardRecordsListCursor
    rw [if_neg h, hb]
  · intro cb h hb hg
    unfold unmarshalLeaderboardRecordsListCursor
    rw [if_neg h, hb]
    show (match gobDecodeCursor cb with
      | none => Except.error Err.invalidCursor
      | some incomingCursor =>
        if leaderboardId ≠ incomingCursor.LeaderboardId then Except.error Err.invalidCursor
        else if expiryTime ≠ incomingCursor.ExpiryTime then Except.error Err.invalidCursor
        else Except.ok (some incomingCursor)) = Except.error Err.invalidCursor
    rw [hg]
  · intro cb c h hb hg
    unfold unmarshalLeaderboardRecordsListCursor
    rw [if_neg h, hb]
    show (match gobDecodeCursor cb with
      | none => Except.error Err.invalidCursor
      | some incomingCursor =>
        if leaderboardId ≠ incomingCursor.LeaderboardId then Except.error Err.invalidCursor
        else if expiryTime ≠ incomingCursor.ExpiryTime then Except.error Err.invalidCursor
        else Except.ok (some incomingCursor)) = Except.error Err.invalidCursor
      ↔ (leaderboardId ≠ c.LeaderboardId ∨ expiryTime ≠ c.ExpiryTime)
    rw [hg]
    by_cases h1 : leaderboardId ≠ c.LeaderboardId
    · simp [h1]
    · by_cases h2 : expiryTime ≠ c.ExpiryTime <;> simp [h1, h2]
  · intro c hmis
    unfold unmarshalLeaderboardRecordsListCursor
    rw [if_neg (marshal_ne_empty c), marshal_data, base64UrlDecode_encode]
    show (match gobDecodeCursor (gobEncodeCursor c) with
      | none => Except.error Err.invalidCursor
      | some incomingCursor =>
        if leaderboardId ≠ incomingCursor.LeaderboardId then Except.error Err.invalidCursor
        else if expiryTime ≠ incomingCursor.ExpiryTime then Except.error Err.invalidCursor
        else Except.ok (some incomingCursor)) = Except.error Err.invalidCursor
    rw [gobDecodeCursor_encode]
    rcases hmis with h1 | h2
    · simp [h1]
    · by_cases h1 : leaderboardId ≠ c.LeaderboardId <;> simp [h1, h2]

/-- Witness for claim C2: a concrete cursor bound to leaderboard "lb" at
expiry 7 is rejected when decoded under leaderboard "x" at expiry 0. -/
theorem unmarshal_invalidCursor_characterization_witness :
    unmarshalLeaderboardRecordsListCursor "x" 0
        (marshalLeaderboardRecordsListCursor
          { IsNext := true, LeaderboardId := "lb", ExpiryTime := 7, Score := 2,
            Subscore := 3, OwnerId := "o", Rank := 4 }) = .error .invalidCursor :=
  (unmarshal_invalidCursor_characterization "x" 0
      (marshalLeaderboardRecordsListCursor
        { IsNext := true, LeaderboardId := "lb", ExpiryTime := 7, Score := 2,
          Subscore := 3, OwnerId := "o", Rank := 4 })).2.2.2.2
    { IsNext := true, LeaderboardId := "lb", ExpiryTime := 7, Score := 2,
      Subscore := 3, OwnerId := "o", Rank := 4 }
    (Or.inl (by decide))

/-- Sort-order constant for ascending leaderboards.  Modelled from the
spec: the constant is declared elsewhere in the repository. -/
def LeaderboardSortOrderAscending : Nat := 0

/-- Sort-order constant for descending leaderboards.  Modelled from the
spec: the constant is declared elsewhere in the repository. -/
def LeaderboardSortOrderDescending : Nat := 1

/-- Operator constant for best.  Modelled from the spec: declared
elsewhere in the repository. -/
def LeaderboardOperatorBest : Nat := 0

/-- Operator constant for set.  Modelled from the spec: declared elsewhere
in the repository. -/
def LeaderboardOperatorSet : Nat := 1

/-- Operator constant for increment.  Modelled from the spec: declared
elsewhere in the repository. -/
def LeaderboardOperatorIncrement : Nat := 2

/-- Operator constant for decrement.  Modelled from the spec: declared
elsewhere in the repository. -/
def LeaderboardOperatorDecrement : Nat := 3

/-- `api.Operator` wire value for no override. -/
def Operator_NO_OVERRIDE : Nat := 0

/-- `api.Operator` wire value for best. -/
def Operator_BEST : Nat := 1

/-- `api.Operator` wire value for set. -/
def Operator_SET : Nat := 2

/-- `api.Operator` wire value for increment. -/
def Operator_INCREMENT : Nat := 3

/-- `api.Operator` wire value for decrement. -/
def Operator_DECREMENT : Nat := 4

/-- Cron reset schedule, modelled abstractly through the interface the
engine consumes: `next` (the first reset strictly after the given time)
and `nextN` (the first `n` such resets), in epoch seconds. -/
structure Schedule where
  next : Int → Int
  nextN : Int → Nat → List Int

/-- The leaderboard definition fields `core_leaderboard.go` consumes. -/
structure Leaderboard where
  Id : String
  SortOrder : Nat
  Operator : Nat
  Authoritative : Bool
  ResetSchedule : Option Schedule
  CreateTime : Int
  Metadata : String

/-- `calculatePrevReset`: subtract the period between the first two future
resets from the first one; clamp to 0 before the leaderboard's create
time.  The Go code indexes `NextN(currentTime, 2)` at 0 and 1 and would
panic on a shorter slice; the model returns 0 there, and the claim
constrains that case away. -/
def calculatePrevReset (currentTime : Int) (startTime : Int)
    (resetSchedule : Option Schedule) : Int :=
  match resetSchedule with
  | none => 0
  | some e =>
    match e.nextN currentTime 2 with
    | t1 :: t2 :: _ =>
      let resetPeriod := t2 - t1
      let prevReset := t1 - resetPeriod
      if prevReset < startTime then 0 else prevReset
    | _ => 0

/-- Claim C9: with the first two future resets being `t1, t2`, the
previous reset is `t1 - (t2 - t1)`, or 0 when that instant precedes the
create time; a nil schedule yields 0. -/
theorem calculatePrevReset_spec (e : Schedule) (now C t1 t2 : Int)
    (h : e.nextN now 2 = [t1, t2]) :
    calculatePrevReset now C (some e)
        = (if t1 - (t2 - t1) < C then 0 else t1 - (t2 - t1))
      ∧ calculatePrevReset now C none = 0 := by
  constructor
  · have hred : calculatePrevReset now C (some e)
        = (match e.nextN now 2 with
          | t1 :: t2 :: _ => if t1 - (t2 - t1) < C then 0 else t1 - (t2 - t1)
          | _ => 0) := rfl
    rw [hred, h]
  · rfl

/-- Witness for claim C9: a schedule whose next two resets after 0 are 100
and 160 has previous reset 40 for create time 0, and a nil schedule gives 0. -/
theorem calculatePrevReset_spec_witness :
    calculatePrevReset 0 0 (some ⟨fun t => t + 60, fun _ _ => [100, 160]⟩)
        = (if (100 : Int) - (160 - 100) < 0 then 0 else 100 - (160 - 100))
      ∧ calculatePrevReset 0 0 none = 0 :=
  calculatePrevReset_spec ⟨fun t => t + 60, fun _ _ => [100, 160]⟩ 0 0 100 160 rfl

/-- One persisted `leaderboard_record` row.  `num_score` and
`max_num_score` carry the store schema's defaults of 1 and 0 on insert
(modelled from the spec; the schema lives outside this file). -/
structure Row where
  leaderboardId : String
  ownerId : String
  username : Option String
  score : Int
  subscore : Int
  numScore : Int
  maxNumScore : Int
  metadata : String
  createTime : Int
  updateTime : Int
  expiryTime : Int
deriving DecidableEq

/-- Primary-key lookup in the store. -/
def findRow (table : List Row) (leaderboardId ownerId : String)
    (expiryTime : Int) : Option Row :=
  table.find? (fun r => r.leaderboardId == leaderboardId && r.ownerId == ownerId
    && r.expiryTime == expiryTime)

/-- Replace the row carrying the new row's primary key. -/
def replaceRow (table : List Row) (newRow : Row) : List Row :=
  table.map (fun r =>
    if r.leaderboardId == newRow.leaderboardId && r.ownerId == newRow.ownerId
        && r.expiryTime == newRow.expiryTime then newRow else r)

/-- The public `api.LeaderboardRecord` shape; `ExpiryTime` is only set
when non-zero, mirroring the protobuf optional timestamp. -/
structure ApiRecord where
  LeaderboardId : String
  OwnerId : String
  Username : Option String
  Score : Int
  Subscore : Int
  NumScore : Int
  MaxNumScore : Int
  Metadata : String
  CreateTime : Int
  UpdateTime : Int
  ExpiryTime : Option Int
  Rank : Int
deriving DecidableEq

/-- Trace entries for rank-index interactions, used to observe that the
error paths perform none. -/
inductive RankOp where
  | get (leaderboardId : String) (expiryTime : Int) (ownerId : String)
  | insert (leaderboardId : String) (expiryTime : Int) (sortOrder : Nat)
      (ownerId : String) (score subscore : Int)
  | delete (leaderboardId : String) (expiryTime : Int) (ownerId : String)
  | fill (leaderboardId : String) (expiryTime : Int)
deriving DecidableEq

/-- The rank index consumed by the engine, modelled as pure functions:
`get` and `insert` return the rank, `rankOf` is the rank `Fill` writes
into each record. -/
structure RankCache where
  get : String → Int → String → Int
  insert : String → Int → Nat → String → Int → Int → Int
  rankOf : String → Int → String → Int

/-- The expiry a write or delete binds to: the next reset after `now`, or
0 for leaderboards that never reset. -/
def leaderboardWriteExpiry (leaderboard : Leaderboard) (now : Int) : Int :=
  match leaderboard.ResetSchedule with
  | some sched => sched.next now
  | none => 0

/-- The `overrideOperator` switch of `LeaderboardRecordWrite`: map the
`api.Operator` wire value to the internal operator constant, rejecting
unknown values. -/
def effectiveOperator (leaderboardOperator overrideOperator : Nat) : Except Err Nat :=
  if overrideOperator = Operator_NO_OVERRIDE then .ok leaderboardOperator
  else if overrideOperator = Operator_INCREMENT then .ok LeaderboardOperatorIncrement
  else if overrideOperator = Operator_SET then .ok LeaderboardOperatorSet
  else if overrideOperator = Operator_BEST then .ok LeaderboardOperatorBest
  else if overrideOperator = Operator_DECREMENT then .ok LeaderboardOperatorDecrement
  else .error .invalidOperator

/-- `$4`/`$5` of the upsert: the absolute value inserted for a fresh row.
The decrement branch sets the inserted absolutes to 0; every other branch
(including the default, which behaves as best) passes the submission
through. -/
def scoreAbsFor (operator : Nat) (value : Int) : Int :=
  if operator = LeaderboardOperatorDecrement then 0 else value

/-- The `DO UPDATE SET` score/subscore expressions of the upsert, per
operator and sort order (the default switch branch behaves as best). -/
def updateScores (operator sortOrder : Nat) (existing : Row)
    (score subscore : Int) : Int × Int :=
  if operator = LeaderboardOperatorIncrement then
    (existing.score + score, existing.subscore + subscore)
  else if operator = LeaderboardOperatorDecrement then
    (max (existing.score - score) 0, max (existing.subscore - subscore) 0)
  else if operator = LeaderboardOperatorSet then
    (score, subscore)
  else if sortOrder = LeaderboardSortOrderAscending then
    (min existing.score score, min existing.subscore subscore)
  else
    (max existing.score score, max existing.subscore subscore)

/-- The `WHERE` filter appended to the upsert's update: when it is false
the conflicting update is skipped and the store returns no row. -/
def updateFilter (operator sortOrder : Nat) (existing : Row)
    (score subscore : Int) : Bool :=
  if operator = LeaderboardOperatorIncrement ∨ operator = LeaderboardOperatorDecrement then
    score != 0 || subscore != 0
  else if operator = LeaderboardOperatorSet then
    existing.score != score || existing.subscore != subscore
  else if sortOrder = LeaderboardSortOrderAscending then
    decide (existing.score > score) || decide (existing.subscore > subscore)
  else
    decide (existing.score < score) || decide (existing.subscore < subscore)

/-- Assemble the returned `api.LeaderboardRecord` from the row the store
returned. -/
def recordOfRow (row : Row) (leaderboardId ownerId : String)
    (expiryTime rank : Int) : ApiRecord :=
  { Rank := rank, LeaderboardId := leaderboardId, OwnerId := ownerId,
    Score := row.score, Subscore := row.subscore, NumScore := row.numScore,
    MaxNumScore := row.maxNumScore, Metadata := row.metadata,
    CreateTime := row.createTime, UpdateTime := row.updateTime,
    Username := row.username,
    ExpiryTime := if expiryTime ≠ 0 then some expiryTime else none }

/-- Outcome of a write: the returned record or error, the store after the
call, and the trace of rank-index operations performed. -/
structure WriteResult where
  res : Except Err ApiRecord
  table : List Row
  rankOps : List RankOp

/-- `LeaderboardRecordWrite`: resolve the leaderboard, enforce the
authoritative gate, resolve the operator, then apply the single-row upsert
with the operator's update expressions and filter.  A filtered-out update
falls back to reading the existing row (the `unchanged` path, which also
covers the primary-key-conflict race) and consults `rankCache.get`;
otherwise the new score is published via `rankCache.insert`.  The caller
is a UUID modelled as `Nat` with `uuid.Nil = 0`. -/
def LeaderboardRecordWrite (leaderboardCache : String → Option Leaderboard)
    (rankCache : RankCache) (now : Int) (table : List Row) (caller : Nat)
    (leaderboardId ownerId username : String) (score subscore : Int)
    (metadata : String) (overrideOperator : Nat) : WriteResult :=
  match leaderboardCache leaderboardId with
  | none => ⟨.error .leaderboardNotFound, table, []⟩
  | some leaderboard =>
    if leaderboard.Authoritative && caller != 0 then
      ⟨.error .leaderboardAuthoritative, table, []⟩
    else
      match effectiveOperator leaderboard.Operator overrideOperator with
      | .error e => ⟨.error e, table, []⟩
      | .ok operator =>
        let expiryTime := leaderboardWriteExpiry leaderboard now
        match findRow table leaderboardId ownerId expiryTime with
        | none =>
          let inserted : Row :=
            { leaderboardId := leaderboardId, ownerId := ownerId,
              username := if username = "" then none else some username,
              score := scoreAbsFor operator score,
              subscore := scoreAbsFor operator subscore,
              numScore := 1, maxNumScore := 0,
              metadata := if metadata = "" then "\x7b\x7d" else metadata,
              createTime := now, updateTime := now, expiryTime := expiryTime }
          let rank := rankCache.insert leaderboardId expiryTime
              leaderboard.SortOrder ownerId inserted.score inserted.subscore
          ⟨.ok (recordOfRow inserted leaderboardId ownerId expiryTime rank),
            table ++ [inserted],
            [.insert leaderboardId expiryTime leaderboard.SortOrder ownerId
              inserted.score inserted.subscore]⟩
        | some existing =>
          if updateFilter operator leaderboard.SortOrder existing score subscore then
            let ns := updateScores operator leaderboard.SortOrder existing score subscore
            let updated : Row :=
              { existing with
                score := ns.1
                subscore := ns.2
                numScore := existing.numScore + 1
                metadata := if metadata = "" then existing.metadata else metadata
                username := if username = "" then existing.username else some username
                updateTime := now }
            let rank := rankCache.insert leaderboardId expiryTime
                leaderboard.SortOrder ownerId ns.1 ns.2
            ⟨.ok (recordOfRow updated leaderboardId ownerId expiryTime rank),
              replaceRow table updated,
              [.insert leaderboardId expiryTime leaderboard.SortOrder ownerId ns.1 ns.2]⟩
          else
            let rank := rankCache.get leaderboardId expiryTime ownerId
            ⟨.ok (recordOfRow existing leaderboardId ownerId expiryTime rank),
              table,
              [.get leaderboardId expiryTime ownerId]⟩

theorem write_guard_false (leaderboard : Leaderboard) (caller : Nat)
    (hauth : ¬(leaderboard.Authoritative = true ∧ caller ≠ 0)) :
    (leaderboard.Authoritative && (caller != 0)) = false := by
  cases h : leaderboard.Authoritative
  · rfl
  · have hc : caller = 0 := by
      by_contra hc
      exact hauth ⟨h, hc⟩
    subst hc
    rfl

/-- Claim C8: a write against an authoritative leaderboard from a non-zero
caller fails with `LeaderboardAuthoritative`, leaves the store unchanged
and performs no rank-index operation. -/
theorem write_authoritative_guard
    (leaderboardCache : String → Option Leaderboard) (rankCache : RankCache)
    (now : Int) (table : List Row) (caller : Nat)
    (leaderboardId ownerId username : String) (score subscore : Int)
    (metadata : String) (overrideOperator : Nat) (leaderboard : Leaderboard)
    (hcache : leaderboardCache leaderboardId = some leaderboard)
    (hauth : leaderboard.Authoritative = true) (hcaller : caller ≠ 0) :
    LeaderboardRecordWrite leaderboardCache rankCache now table caller
        leaderboardId ownerId username score subscore metadata overrideOperator
      = ⟨.error .leaderboardAuthoritative, table, []⟩ := by
  have hguard : (leaderboard.Authoritative && (caller != 0)) = true := by
    rw [hauth]
    simp [bne_iff_ne, hcaller]
  simp [LeaderboardRecordWrite, hcache, hguard]

/-- A concrete rank cache answering rank 0 everywhere, used by witnesses. -/
def rc0 : RankCache :=
  { get := fun _ _ _ => 0, insert := fun _ _ _ _ _ _ => 0, rankOf := fun _ _ _ => 0 }

/-- A concrete authoritative leaderboard without reset schedule. -/
def lbAuth : Leaderboard :=
  { Id := "L", SortOrder := LeaderboardSortOrderDescending,
    Operator := LeaderboardOperatorBest, Authoritative := true,
    ResetSchedule := none, CreateTime := 0, Metadata := "" }

/-- Witness for claim C8: caller 1 writing to the authoritative
leaderboard is refused with the store and rank trace untouched. -/
theorem write_authoritative_guard_witness :
    LeaderboardRecordWrite (fun _ => some lbAuth) rc0 0 [] 1 "L" "o" "" 5 0 ""
        Operator_NO_OVERRIDE
      = ⟨.error .leaderboardAuthoritative, [], []⟩ :=
  write_authoritative_guard (fun _ => some lbAuth) rc0 0 [] 1 "L" "o" "" 5 0 ""
    Operator_NO_OVERRIDE lbAuth rfl rfl (by decide)

/-- A concrete non-authoritative decrement leaderboard without schedule. -/
def lbDec : Leaderboard :=
  { Id := "L", SortOrder := LeaderboardSortOrderDescending,
    Operator := LeaderboardOperatorDecrement, Authoritative := false,
    ResetSchedule := none, CreateTime := 0, Metadata := "" }

/-- Counterexample to claim C3: a first-insert decrement submitting
(5, 3) stores score 0 and subscore 0, not the submitted deltas. -/
theorem write_insert_decrement_counterexample :
    (LeaderboardRecordWrite (fun _ => some lbDec) rc0 0 [] 0 "L" "o" "" 5 3 ""
        Operator_NO_OVERRIDE).res
      = .ok { LeaderboardId := "L", OwnerId := "o", Username := none,
              Score := 0, Subscore := 0, NumScore := 1, MaxNumScore := 0,
              Metadata := "\x7b\x7d", CreateTime := 0, UpdateTime := 0,
              ExpiryTime := none, Rank := 0 }
      ∧ (0 : Int) ≠ 5 := ⟨rfl, by decide⟩

/-- Claim C3 (amended): a write inserting a fresh row stores the submitted
score and subscore under best, set and increment; under decrement it
initializes both to 0 (the clamp of a decrement from nothing); `num_score`
starts at 1 and metadata defaults to the empty JSON object when none is
provided. -/
theorem write_insert_spec
    (leaderboardCache : String → Option Leaderboard) (rankCache : RankCache)
    (now : Int) (table : List Row) (caller : Nat)
    (leaderboardId ownerId username : String) (score subscore : Int)
    (metadata : String) (overrideOperator : Nat)
    (leaderboard : Leaderboard) (operator : Nat)
    (hcache : leaderboardCache leaderboardId = some leaderboard)
    (hauth : ¬(leaderboard.Authoritative = true ∧ caller ≠ 0))
    (hop : effectiveOperator leaderboard.Operator overrideOperator = .ok operator)
    (hfresh : findRow table leaderboardId ownerId
        (leaderboardWriteExpiry leaderboard now) = none) :
    ∃ rank : Int,
      (LeaderboardRecordWrite leaderboardCache rankCache now table caller
          leaderboardId ownerId username score subscore metadata overrideOperator).res
        = .ok { LeaderboardId := leaderboardId, OwnerId := ownerId,
                Username := if username = "" then none else some username,
                Score := if operator = LeaderboardOperatorDecrement then 0 else score,
                Subscore := if operator = LeaderboardOperatorDecrement then 0 else subscore,
                NumScore := 1, MaxNumScore := 0,
                Metadata := if metadata = "" then "\x7b\x7d" else metadata,
                CreateTime := now, UpdateTime := now,
                ExpiryTime := if leaderboardWriteExpiry leaderboard now ≠ 0
                  then some (leaderboardWriteExpiry leaderboard now) else none,
                Rank := rank } := by
  refine ⟨rankCache.insert leaderboardId (leaderboardWriteExpiry leaderboard now)
      leaderboard.SortOrder ownerId (scoreAbsFor operator score)
      (scoreAbsFor operator subscore), ?_⟩
  have hguard := write_guard_false leaderboard caller hauth
  simp only [LeaderboardRecordWrite, hcache, hguard, Bool.false_eq_true, if_false,
    hop, hfresh]
  simp [recordOfRow, scoreAbsFor]

/-- A concrete non-authoritative increment leaderboard without schedule. -/
def lbInc : Leaderboard :=
  { Id := "L", SortOrder := LeaderboardSortOrderDescending,
    Operator := LeaderboardOperatorIncrement, Authoritative := false,
    ResetSchedule := none, CreateTime := 0, Metadata := "" }

/-- Witness for claim C3 (amended): a fresh increment write of (5, 3)
stores exactly (5, 3) with `num_score` 1 and default metadata. -/
theorem write_insert_spec_witness :
    ∃ rank : Int,
      (LeaderboardRecordWrite (fun _ => some lbInc) rc0 0 [] 0 "L" "o" "" 5 3 ""
          Operator_NO_OVERRIDE).res
        = .ok { LeaderboardId := "L", OwnerId := "o", Username := none,
                Score := 5, Subscore := 3, NumScore := 1, MaxNumScore := 0,
                Metadata := "\x7b\x7d", CreateTime := 0, UpdateTime := 0,
                ExpiryTime := none, Rank := rank } :=
  write_insert_spec (fun _ => some lbInc) rc0 0 [] 0 "L" "o" "" 5 3 ""
    Operator_NO_OVERRIDE lbInc LeaderboardOperatorIncrement rfl (by simp) rfl rfl

theorem incdec_filter_zero (operator sortOrder : Nat) (existing : Row)
    (h : operator = LeaderboardOperatorIncrement
      ∨ operator = LeaderboardOperatorDecrement) :
    updateFilter operator sortOrder existing 0 0 = false := by
  unfold updateFilter
  rw [if_pos h]
  simp

theorem set_filter_eq_values (sortOrder : Nat) (existing : Row)
    (score subscore : Int)
    (h1 : existing.score = score) (h2 : existing.subscore = subscore) :
    updateFilter LeaderboardOperatorSet sortOrder existing score subscore = false := by
  unfold updateFilter
  rw [if_neg (by decide), if_pos rfl]
  simp [h1, h2]

theorem best_filter_true_iff (sortOrder : Nat) (existing : Row)
    (score subscore : Int) :
    updateFilter LeaderboardOperatorBest sortOrder existing score subscore = true
      ↔ updateScores LeaderboardOperatorBest sortOrder existing score subscore
          ≠ (existing.score, existing.subscore) := by
  unfold updateFilter updateScores
  rw [if_neg (by decide), if_neg (by decide)]
  rw [if_neg (show ¬(LeaderboardOperatorBest = LeaderboardOperatorIncrement) by decide)]
  rw [if_neg (show ¬(LeaderboardOperatorBest = LeaderboardOperatorDecrement) by decide)]
  rw [if_neg (show ¬(LeaderboardOperatorBest = LeaderboardOperatorSet) by decide)]
  by_cases hs : sortOrder = LeaderboardSortOrderAscending <;>
    simp [hs, Prod.ext_iff] <;> omega

/-- Claim C4: against an existing record, increment/decrement writes of
(0, 0) and best/set writes whose merge would change nothing leave
`num_score` unchanged; a write admitted by the update filter increments
`num_score` by exactly 1; in every case the returned `num_score` is the
old one or the old one plus 1, so it never decreases. -/
theorem write_numScore_spec
    (leaderboardCache : String → Option Leaderboard) (rankCache : RankCache)
    (now : Int) (table : List Row) (caller : Nat)
    (leaderboardId ownerId username : String) (score subscore : Int)
    (metadata : String) (overrideOperator : Nat)
    (leaderboard : Leaderboard) (operator : Nat) (existing : Row)
    (hcache : leaderboardCache leaderboardId = some leaderboard)
    (hauth : ¬(leaderboard.Authoritative = true ∧ caller ≠ 0))
    (hop : effectiveOperator leaderboard.Operator overrideOperator = .ok operator)
    (hfound : findRow table leaderboardId ownerId
        (leaderboardWriteExpiry leaderboard now) = some existing) :
    ∃ r : ApiRecord,
      (LeaderboardRecordWrite leaderboardCache rankCache now table caller
          leaderboardId ownerId username score subscore metadata overrideOperator).res
        = .ok r
      ∧ ((operator = LeaderboardOperatorIncrement
            ∨ operator = LeaderboardOperatorDecrement) →
          score = 0 → subscore = 0 → r.NumScore = existing.numScore)
      ∧ (operator = LeaderboardOperatorSet → existing.score = score →
          existing.subscore = subscore → r.NumScore = existing.numScore)
      ∧ (operator = LeaderboardOperatorBest →
          updateScores operator leaderboard.SortOrder existing score subscore
            = (existing.score, existing.subscore) → r.NumScore = existing.numScore)
      ∧ (updateFilter operator leaderboard.SortOrder existing score subscore = true →
          r.NumScore = existing.numScore + 1)
      ∧ (r.NumScore = existing.numScore ∨ r.NumScore = existing.numScore + 1) := by
  have hguard := write_guard_false leaderboard caller hauth
  by_cases hf : updateFilter operator leaderboard.SortOrder existing score subscore = true
  · have hres : (LeaderboardRecordWrite leaderboardCache rankCache now table caller
          leaderboardId ownerId username score subscore metadata overrideOperator).res
        = .ok (recordOfRow
            { existing with
              score := (updateScores operator leaderboard.SortOrder existing score subscore).1
              subscore := (updateScores operator leaderboard.SortOrder existing score subscore).2
              numScore := existing.numScore + 1
              metadata := if metadata = "" then existing.metadata else metadata
              username := if username = "" then existing.username else some username
              updateTime := now }
            leaderboardId ownerId (leaderboardWriteExpiry leaderboard now)
            (rankCache.insert leaderboardId (leaderboardWriteExpiry leaderboard now)
              leaderboard.SortOrder ownerId
              (updateScores operator leaderboard.SortOrder existing score subscore).1
              (updateScores operator leaderboard.SortOrder existing score subscore).2)) := by
      simp only [LeaderboardRecordWrite, hcache, hguard, Bool.false_eq_true, if_false,
        hop, hfound, hf, eq_self_iff_true, if_true]
    refine ⟨_, hres, ?_, ?_, ?_, ?_, ?_⟩
    · intro hod hsz hssz
      subst hsz; subst hssz
      rw [incdec_filter_zero operator leaderboard.SortOrder existing hod] at hf
      exact absurd hf (by decide)
    · intro hset h1 h2
      subst hset
      rw [set_filter_eq_values leaderboard.SortOrder existing score subscore h1 h2] at hf
      exact absurd hf (by decide)
    · intro hbest hmerge
      subst hbest
      exact absurd hmerge ((best_filter_true_iff _ _ _ _).mp hf)
    · intro _
      rfl
    · right
      rfl
  · simp only [Bool.not_eq_true] at hf
    have hres : (LeaderboardRecordWrite leaderboardCache rankCache now table caller
          leaderboardId ownerId username score subscore metadata overrideOperator).res
        = .ok (recordOfRow existing leaderboardId ownerId
            (leaderboardWriteExpiry leaderboard now)
            (rankCache.get leaderboardId (leaderboardWriteExpiry leaderboard now)
              ownerId)) := by
      simp only [LeaderboardRecordWrite, hcache, hguard, Bool.false_eq_true, if_false,
        hop, hfound, hf]
    refine ⟨_, hres, ?_, ?_, ?_, ?_, ?_⟩
    · intro _ _ _
      rfl
    · intro _ _ _
      rfl
    · intro _ _
      rfl
    · intro h
      rw [hf] at h
      exact absurd h (by decide)
    · left
      rfl

/-- A concrete existing row for leaderboard "L", owner "o" at expiry 0. -/
def row0 : Row :=
  { leaderboardId := "L", ownerId := "o", username := none, score := 10,
    subscore := 2, numScore := 4, maxNumScore := 0, metadata := "\x7b\x7d",
    createTime := 0, updateTime := 0, expiryTime := 0 }

/-- Witness for claim C4: an increment write of (0, 0) over `row0`. -/
theorem write_numScore_spec_witness :
    ∃ r : ApiRecord,
      (LeaderboardRecordWrite (fun _ => some lbInc) rc0 1 [row0] 0 "L" "o" "" 0 0 ""
          Operator_NO_OVERRIDE).res
        = .ok r
      ∧ ((LeaderboardOperatorIncrement = LeaderboardOperatorIncrement
            ∨ LeaderboardOperatorIncrement = LeaderboardOperatorDecrement) →
          (0 : Int) = 0 → (0 : Int) = 0 → r.NumScore = row0.numScore)
      ∧ (LeaderboardOperatorIncrement = LeaderboardOperatorSet → row0.score = 0 →
          row0.subscore = 0 → r.NumScore = row0.numScore)
      ∧ (LeaderboardOperatorIncrement = LeaderboardOperatorBest →
          updateScores LeaderboardOperatorIncrement lbInc.SortOrder row0 0 0
            = (row0.score, row0.subscore) → r.NumScore = row0.numScore)
      ∧ (updateFilter LeaderboardOperatorIncrement lbInc.SortOrder row0 0 0 = true →
          r.NumScore = row0.numScore + 1)
      ∧ (r.NumScore = row0.numScore ∨ r.NumScore = row0.numScore + 1) :=
  write_numScore_spec (fun _ => some lbInc) rc0 1 [row0] 0 "L" "o" "" 0 0 ""
    Operator_NO_OVERRIDE lbInc LeaderboardOperatorIncrement row0 rfl (by simp) rfl rfl

/-- Outcome of a delete: unit or error, the store after the call, and the
trace of rank-index operations performed. -/
structure DeleteResult where
  res : Except Err Unit
  table : List Row
  rankOps : List RankOp

/-- `LeaderboardRecordDelete`: resolve the leaderboard, enforce the same
authoritative gate as writes, then delete the row at the bound expiry and
drop the owner from the rank index. -/
def LeaderboardRecordDelete (leaderboardCache : String → Option Leaderboard)
    (now : Int) (table : List Row) (caller : Nat)
    (leaderboardId ownerId : String) : DeleteResult :=
  match leaderboardCache leaderboardId with
  | none => ⟨.error .leaderboardNotFound, table, []⟩
  | some leaderboard =>
    if leaderboard.Authoritative && caller != 0 then
      ⟨.error .leaderboardAuthoritative, table, []⟩
    else
      let expiryTime := leaderboardWriteExpiry leaderboard now
      ⟨.ok (), table.filter (fun r => !(r.leaderboardId == leaderboardId
          && r.ownerId == ownerId && r.expiryTime == expiryTime)),
        [.delete leaderboardId expiryTime ownerId]⟩

/-- Claim C10: a delete against an authoritative leaderboard from a
non-nil caller fails with `LeaderboardAuthoritative` before any store
interaction, leaving the record store and the rank index untouched. -/
theorem delete_authoritative_guard
    (leaderboardCache : String → Option Leaderboard) (now : Int)
    (table : List Row) (caller : Nat) (leaderboardId ownerId : String)
    (leaderboard : Leaderboard)
    (hcache : leaderboardCache leaderboardId = some leaderboard)
    (hauth : leaderboard.Authoritative = true) (hcaller : caller ≠ 0) :
    LeaderboardRecordDelete leaderboardCache now table caller leaderboardId ownerId
      = ⟨.error .leaderboardAuthoritative, table, []⟩ := by
  have hguard : (leaderboard.Authoritative && (caller != 0)) = true := by
    rw [hauth]
    simp [bne_iff_ne, hcaller]
  simp [LeaderboardRecordDelete, hcache, hguard]

/-- Witness for claim C10: caller 1 deleting from the authoritative
leaderboard is refused with the store and rank trace untouched. -/
theorem delete_authoritative_guard_witness :
    LeaderboardRecordDelete (fun _ => some lbAuth) 0 [row0] 1 "L" "o"
      = ⟨.error .leaderboardAuthoritative, [row0], []⟩ :=
  delete_authoritative_guard (fun _ => some lbAuth) 0 [row0] 1 "L" "o" lbAuth
    rfl rfl (by decide)

/-- The composite listing key of a row. -/
def rowKey (r : Row) : Int × Int × String := (r.score, r.subscore, r.ownerId)

/-- The composite key carried by a cursor. -/
def cursorKey (c : Cursor) : Int × Int × String := (c.Score, c.Subscore, c.OwnerId)

/-- Byte-wise lexicographic text comparison, the store's text ordering. -/
def strLtb : List Char → List Char → Bool
  | [], [] => false
  | [], _ :: _ => true
  | _ :: _, [] => false
  | c :: cs, d :: ds =>
    if c.toNat < d.toNat then true
    else if c.toNat = d.toNat then strLtb cs ds
    else false

/-- Strict lexicographic order on `(score, subscore, owner_id)`, the
store's composite index order. -/
def keyLtb (x y : Int × Int × String) : Bool :=
  if x.1 < y.1 then true
  else if x.1 = y.1 then
    (if x.2.1 < y.2.1 then true
     else if x.2.1 = y.2.1 then strLtb x.2.2.data y.2.2.data
     else false)
  else false

/-- Insertion into a list sorted by `le`. -/
def insertSorted (le : Row → Row → Bool) (x : Row) : List Row → List Row
  | [] => [x]
  | y :: ys => if le x y then x :: y :: ys else y :: insertSorted le x ys

/-- Insertion sort by `le`, modelling the store's ORDER BY. -/
def sortRows (le : Row → Row → Bool) : List Row → List Row
  | [] => []
  | x :: xs => insertSorted le x (sortRows le xs)

/-- Row order for `ORDER BY score ASC, subscore ASC, owner_id ASC`. -/
def ascLe (a b : Row) : Bool := !keyLtb (rowKey b) (rowKey a)

/-- Row order for `ORDER BY score DESC, subscore DESC, owner_id DESC`. -/
def descLe (a b : Row) : Bool := !keyLtb (rowKey a) (rowKey b)

/-- The paginated listing query (lines 141-164): restrict to the
leaderboard and expiry, apply the cursor's strict tuple comparison (the
`$1`/`$2` components are equal under the WHERE clause, so the five-column
comparison reduces to the key triple), order by the branch's ORDER BY and
fetch `LIMIT` rows. -/
def listQuery (table : List Row) (leaderboardId : String) (expiryTime : Int)
    (sortOrder : Nat) (incomingCursor : Option Cursor) (fetch : Nat) : List Row :=
  let base := table.filter (fun r => r.leaderboardId == leaderboardId
    && r.expiryTime == expiryTime)
  match incomingCursor with
  | none =>
    if sortOrder = LeaderboardSortOrderAscending then
      (sortRows ascLe base).take fetch
    else
      (sortRows descLe base).take fetch
  | some c =>
    if (sortOrder = LeaderboardSortOrderAscending ∧ c.IsNext = true)
        ∨ (sortOrder = LeaderboardSortOrderDescending ∧ c.IsNext = false) then
      (sortRows ascLe (base.filter (fun r => keyLtb (cursorKey c) (rowKey r)))).take fetch
    else
      (sortRows descLe (base.filter (fun r => keyLtb (rowKey r) (cursorKey c)))).take fetch

/-- The mutable state of the listing scan loop (lines 170-245): the
records built so far, the running rank, the synthesized cursors, and the
`db*` scan variables holding the previous iteration's row (zero-valued
before the first `Scan`). -/
structure ScanState where
  records : List ApiRecord
  rank : Int
  nextCursor : Option Cursor
  prevCursor : Option Cursor
  dbScore : Int
  dbSubscore : Int
  dbOwnerId : String

/-- Scan state before the first row. -/
def initialScanState (rank : Int) : ScanState :=
  { records := [], rank := rank, nextCursor := none, prevCursor := none,
    dbScore := 0, dbSubscore := 0, dbOwnerId := "" }

/-- One iteration of the scan loop.  The Go loop synthesizes the next
cursor from the PREVIOUS row's scan variables before `Scan` overwrites
them, and then still appends the current row to the page. -/
def scanStep (leaderboardId : String) (expiryTime : Int) (limitNumber : Nat)
    (incomingCursor : Option Cursor) (st : ScanState) (row : Row) : ScanState :=
  let nextCursor := if st.records.length ≥ limitNumber then
      some { IsNext := true, LeaderboardId := leaderboardId,
             ExpiryTime := expiryTime, Score := st.dbScore,
             Subscore := st.dbSubscore, OwnerId := st.dbOwnerId, Rank := st.rank }
    else st.nextCursor
  let rank := match incomingCursor with
    | some c => if c.IsNext then st.rank + 1 else st.rank - 1
    | none => st.rank + 1
  let record : ApiRecord :=
    { LeaderboardId := leaderboardId, OwnerId := row.ownerId,
      Username := row.username, Score := row.score, Subscore := row.subscore,
      NumScore := row.numScore, MaxNumScore := row.maxNumScore,
      Metadata := row.metadata, CreateTime := row.createTime,
      UpdateTime := row.updateTime,
      ExpiryTime := if expiryTime ≠ 0 then some expiryTime else none,
      Rank := rank }
  let prevCursor := if incomingCursor.isSome && st.prevCursor.isNone then
      some { IsNext := false, LeaderboardId := leaderboardId,
             ExpiryTime := expiryTime, Score := row.score,
             Subscore := row.subscore, OwnerId := row.ownerId, Rank := rank }
    else st.prevCursor
  { records := st.records ++ [record], rank := rank, nextCursor := nextCursor,
    prevCursor := prevCursor, dbScore := row.score, dbSubscore := row.subscore,
    dbOwnerId := row.ownerId }

/-- The cursor swap of the backward-page fixup (line 251), following Go's
tuple-assignment semantics: the right-hand sides and the assignment
targets (the pointees reachable before any assignment) are captured
first, so the two variables swap while the pointees exchange their
`IsNext` and `Rank` fields.  Input and output are `(next, prev)`. -/
def swapCursors : Option Cursor × Option Cursor → Option Cursor × Option Cursor
  | (some b, some a) =>
    (some { a with IsNext := b.IsNext, Rank := b.Rank },
      some { b with IsNext := a.IsNext, Rank := a.Rank })
  | (some b, none) => (none, some { b with IsNext := !b.IsNext })
  | (none, some a) => (some { a with IsNext := !a.IsNext }, none)
  | (none, none) => (none, none)

/-- The backward-page record reversal loop (lines 260-262), following
Go's tuple-assignment semantics: the slice entries are swapped, while
each `Rank` assignment targets the pointee captured before the swap, so
the rank values stay attached to their positions rather than moving with
their records. -/
def flipRecordsRanks (records : List ApiRecord) : List ApiRecord :=
  List.zipWith (fun r k => { r with Rank := k })
    records.reverse (records.map (fun r => r.Rank))

/-- What the paginated scan returns: the page and the synthesized
boundary cursors, still unserialized. -/
structure ListResultCore where
  records : List ApiRecord
  nextCursor : Option Cursor
  prevCursor : Option Cursor

/-- The paginated portion of `LeaderboardRecordsList` (lines 141-263)
given the resolved expiry and the decoded cursor: fetch `limit + 1` rows,
run the scan loop, and apply the backward-page fixup. -/
def leaderboardRecordsListCore (sortOrder : Nat) (leaderboardId : String)
    (expiryTime : Int) (limitNumber : Nat) (incomingCursor : Option Cursor)
    (table : List Row) : ListResultCore :=
  let rows := listQuery table leaderboardId expiryTime sortOrder incomingCursor
      (limitNumber + 1)
  let rank0 : Int := match incomingCursor with
    | some c => c.Rank
    | none => 0
  let st := rows.foldl (scanStep leaderboardId expiryTime limitNumber incomingCursor)
      (initialScanState rank0)
  match incomingCursor with
  | some c =>
    if c.IsNext then
      { records := st.records, nextCursor := st.nextCursor,
        prevCursor := st.prevCursor }
    else
      let swapped := swapCursors (st.nextCursor, st.prevCursor)
      { records := flipRecordsRanks st.records, nextCursor := swapped.1,
        prevCursor := swapped.2 }
  | none =>
    { records := st.records, nextCursor := st.nextCursor,
      prevCursor := st.prevCursor }

/-- The owner-batch block (lines 281-341): rows matching the requested
owners at the same leaderboard and expiry, ranks filled via the index's
`Fill`. -/
def ownerRecordsFor (rankCache : RankCache) (leaderboardId : String)
    (expiryTime : Int) (ownerIds : List String) (table : List Row) :
    List ApiRecord :=
  if ownerIds = [] then []
  else
    (table.filter (fun r => r.leaderboardId == leaderboardId
        && r.expiryTime == expiryTime && ownerIds.contains r.ownerId)).map
      (fun r =>
        { LeaderboardId := leaderboardId, OwnerId := r.ownerId,
          Username := r.username, Score := r.score, Subscore := r.subscore,
          NumScore := r.numScore, MaxNumScore := r.maxNumScore,
          Metadata := r.metadata, CreateTime := r.createTime,
          UpdateTime := r.updateTime,
          ExpiryTime := if expiryTime ≠ 0 then some expiryTime else none,
          Rank := rankCache.rankOf leaderboardId expiryTime r.ownerId })

/-- Result shape of `api.LeaderboardRecordList`. -/
structure RecordList where
  records : List ApiRecord
  ownerRecords : List ApiRecord
  nextCursor : String
  prevCursor : String
deriving DecidableEq

/-- `LeaderboardRecordsList` over the resolved expiry: decode the cursor
string, run the paginated scan when a limit is given, marshal the
boundary cursors, and serve the owner-batch lookup. -/
def LeaderboardRecordsList (rankCache : RankCache) (sortOrder : Nat)
    (leaderboardId : String) (expiryTime : Int) (limit : Option Nat)
    (cursor : String) (ownerIds : List String) (table : List Row) :
    Except Err RecordList :=
  match limit with
  | some limitNumber =>
    match unmarshalLeaderboardRecordsListCursor leaderboardId expiryTime cursor with
    | .error e => .error e
    | .ok incomingCursor =>
      let core := leaderboardRecordsListCore sortOrder leaderboardId expiryTime
          limitNumber incomingCursor table
      let nextCursorStr := match core.nextCursor with
        | some c => marshalLeaderboardRecordsListCursor c
        | none => ""
      let prevCursorStr := match core.prevCursor with
        | some c => marshalLeaderboardRecordsListCursor c
        | none => ""
      .ok { records := core.records,
            ownerRecords := ownerRecordsFor rankCache leaderboardId expiryTime
              ownerIds table,
            nextCursor := nextCursorStr, prevCursor := prevCursorStr }
  | none =>
    .ok { records := [],
          ownerRecords := ownerRecordsFor rankCache leaderboardId expiryTime
            ownerIds table,
          nextCursor := "", prevCursor := "" }

/-- Helper building rows of leaderboard "L" at expiry 0 for concrete
stores. -/
def mkRow (ownerId : String) (score : Int) : Row :=
  { leaderboardId := "L", ownerId := ownerId, username := none, score := score,
    subscore := 0, numScore := 1, maxNumScore := 0, metadata := "\x7b\x7d",
    createTime := 0, updateTime := 0, expiryTime := 0 }

/-- Three records: a best (30), b (20), c worst (10), descending order. -/
def table3 : List Row := [mkRow "a" 30, mkRow "b" 20, mkRow "c" 10]

/-- Four records: a best (40) down to d worst (10), descending order. -/
def table4 : List Row := [mkRow "a" 40, mkRow "b" 30, mkRow "c" 20, mkRow "d" 10]

/-- Claim C5 failing input: a descending listing with limit 2 from the
next-cursor at row a fetches limit + 1 = 3 rows and returns all three:
the extra row d is among the returned records, even though the
synthesized next cursor was built from row c, so the following page
repeats row d. -/
theorem list_extra_row_returned :
    (leaderboardRecordsListCore LeaderboardSortOrderDescending "L" 0 2
        (some { IsNext := true, LeaderboardId := "L", ExpiryTime := 0, Score := 40,
                Subscore := 0, OwnerId := "a", Rank := 1 }) table4).records.map
        (fun r => (r.OwnerId, r.Rank))
      = [("b", 2), ("c", 3), ("d", 4)]
    ∧ (leaderboardRecordsListCore LeaderboardSortOrderDescending "L" 0 2
        (some { IsNext := true, LeaderboardId := "L", ExpiryTime := 0, Score := 40,
                Subscore := 0, OwnerId := "a", Rank := 1 }) table4).nextCursor
      = some { IsNext := true, LeaderboardId := "L", ExpiryTime := 0, Score := 20,
               Subscore := 0, OwnerId := "c", Rank := 3 } := by
  constructor
  · decide
  · decide

/-- Claim C1 failing input: paging forward from the cursor at row b
returns the page [c] with rank 3 and the previous-cursor at c (rank 3);
paging backward with exactly that cursor returns the records in
best-to-worst order [a, b] but carrying each other's ranks: a gets rank 2
and b gets rank 1 instead of their own ranks 1 and 2, so the
forward-then-backward round trip does not restore the original page's
rank values. -/
theorem list_backward_rank_divergence :
    (leaderboardRecordsListCore LeaderboardSortOrderDescending "L" 0 2
        (some { IsNext := true, LeaderboardId := "L", ExpiryTime := 0, Score := 20,
                Subscore := 0, OwnerId := "b", Rank := 2 }) table3).records.map
        (fun r => (r.OwnerId, r.Rank)) = [("c", 3)]
    ∧ (leaderboardRecordsListCore LeaderboardSortOrderDescending "L" 0 2
        (some { IsNext := true, LeaderboardId := "L", ExpiryTime := 0, Score := 20,
                Subscore := 0, OwnerId := "b", Rank := 2 }) table3).prevCursor
      = some { IsNext := false, LeaderboardId := "L", ExpiryTime := 0, Score := 10,
               Subscore := 0, OwnerId := "c", Rank := 3 }
    ∧ (leaderboardRecordsListCore LeaderboardSortOrderDescending "L" 0 2
        (some { IsNext := false, LeaderboardId := "L", ExpiryTime := 0, Score := 10,
                Subscore := 0, OwnerId := "c", Rank := 3 }) table3).records.map
        (fun r => (r.OwnerId, r.Rank)) = [("a", 2), ("b", 1)] := by
  refine ⟨by decide, by decide, by decide⟩

deriving instance DecidableEq for Except

/-- `parseLeaderboardRecords` (lines 858-902): project scanned rows into
api records with rank 0; the expiry field comes from the row itself. -/
def rowToApi (r : Row) : ApiRecord :=
  { LeaderboardId := r.leaderboardId, OwnerId := r.ownerId,
    Username := r.username, Score := r.score, Subscore := r.subscore,
    NumScore := r.numScore, MaxNumScore := r.maxNumScore,
    Metadata := r.metadata, CreateTime := r.createTime,
    UpdateTime := r.updateTime,
    ExpiryTime := if r.expiryTime ≠ 0 then some r.expiryTime else none,
    Rank := 0 }

/-- List version of `parseLeaderboardRecords`. -/
def parseLeaderboardRecords (rows : List Row) : List ApiRecord :=
  rows.map rowToApi

/-- The better-side probe (lines 724-741): strictly the better side of
the owner's key, ordered outward from the owner, `limit + 1` rows. -/
def haystackFirstRows (limit : Nat) (sortOrder : Nat) (base : List Row)
    (ownKey : Int × Int × String) : List Row :=
  if sortOrder = LeaderboardSortOrderAscending then
    (sortRows descLe (base.filter
      (fun r => keyLtb (rowKey r) ownKey))).take (limit + 1)
  else
    (sortRows ascLe (base.filter
      (fun r => keyLtb ownKey (rowKey r)))).take (limit + 1)

/-- The worse-side probe (lines 761-786): strictly the worse side of the
owner's key, ordered outward, `secondLimit + 1` rows. -/
def haystackSecondRows (secondLimit : Nat) (sortOrder : Nat) (base : List Row)
    (ownKey : Int × Int × String) : List Row :=
  if sortOrder = LeaderboardSortOrderAscending then
    (sortRows ascLe (base.filter
      (fun r => keyLtb ownKey (rowKey r)))).take (secondLimit + 1)
  else
    (sortRows descLe (base.filter
      (fun r => keyLtb (rowKey r) ownKey))).take (secondLimit + 1)

/-- Drop the probe row when more than `lim` rows came back. -/
def trimOver (lim : Nat) (l : List ApiRecord) : List ApiRecord :=
  if l.length > lim then l.dropLast else l

/-- The worse-side limit (lines 769-772): half the window, or the rest of
it when the better side came up short. -/
def haystackSecondLimit (limit fLen : Nat) : Nat :=
  if fLen < limit / 2 then limit - fLen else limit / 2

/-- The window start index (lines 798-802), for a concatenation of `f`
better records, the owner, and `s` worse records. -/
def haystackStart (f s limit : Nat) : Int :=
  if (f : Int) + 1 + s - limit < 0 ∨ f < limit / 2 then 0
  else (f : Int) + 1 + s - limit

/-- The window end index (lines 803-806). -/
def haystackEnd (f s limit : Nat) : Int :=
  if haystackStart f s limit + limit > (f : Int) + 1 + s then (f : Int) + 1 + s
  else haystackStart f s limit + limit

/-- The returned haystack page (lines 795-809): window the concatenation
`better ++ owner :: worse` to the computed bounds and fill ranks. -/
def haystackRecords (rankCache : RankCache) (leaderboardId : String)
    (expiryTime : Int) (limit : Nat) (first second : List ApiRecord)
    (own : ApiRecord) : List ApiRecord :=
  (((first ++ own :: second).drop
      (haystackStart first.length second.length limit).toNat).take
    (haystackEnd first.length second.length limit
      - haystackStart first.length second.length limit).toNat).map
    (fun rec => { rec with
      Rank := rankCache.rankOf leaderboardId expiryTime rec.OwnerId })

/-- The empty-cursor haystack around a found owner row, `limit ≠ 1`
(lines 719-851): fetch and trim the two probes, window, fill ranks, and
synthesize the direction-inverted boundary cursors.  (Where the Go code
indexes `records[0]`/`records[len-1]` for the cursors - panicking on an
empty window - the model falls back to the owner record; the claims never
reach that configuration.) -/
def haystackEmptyCursor (rankCache : RankCache) (ownerId : String)
    (limit : Nat) (leaderboardId : String) (sortOrder : Nat)
    (expiryTime : Int) (table : List Row) (ownerRow : Row) : RecordList :=
  let ownerRecord := rowToApi ownerRow
  let base := table.filter (fun r => r.leaderboardId == leaderboardId
    && r.expiryTime == expiryTime)
  let ownKey := (ownerRow.score, ownerRow.subscore, ownerId)
  let firstParsed := parseLeaderboardRecords
    (haystackFirstRows limit sortOrder base ownKey)
  let setNextCursor := decide (firstParsed.length > limit)
  let firstRecords := (trimOver limit firstParsed).reverse
  let secondLimit := haystackSecondLimit limit firstRecords.length
  let secondParsed := parseLeaderboardRecords
    (haystackSecondRows secondLimit sortOrder base ownKey)
  let setPrevCursor := decide (secondParsed.length > secondLimit)
  let secondRecords := trimOver secondLimit secondParsed
  let records := haystackRecords rankCache leaderboardId expiryTime limit
    firstRecords secondRecords ownerRecord
  let nextCursorStr := if setNextCursor then
      marshalLeaderboardRecordsListCursor
        { IsNext := false,
          LeaderboardId := (records.headD ownerRecord).LeaderboardId,
          ExpiryTime := expiryTime,
          Score := (records.headD ownerRecord).Score,
          Subscore := (records.headD ownerRecord).Subscore,
          OwnerId := (records.headD ownerRecord).OwnerId,
          Rank := (records.headD ownerRecord).Rank }
    else ""
  let prevCursorStr := if setPrevCursor then
      marshalLeaderboardRecordsListCursor
        { IsNext := true,
          LeaderboardId := (records.getLastD ownerRecord).LeaderboardId,
          ExpiryTime := expiryTime,
          Score := (records.getLastD ownerRecord).Score,
          Subscore := (records.getLastD ownerRecord).Subscore,
          OwnerId := (records.getLastD ownerRecord).OwnerId,
          Rank := (records.getLastD ownerRecord).Rank }
    else ""
  { records := records, ownerRecords := [],
    nextCursor := nextCursorStr, prevCursor := prevCursorStr }

/-- `getLeaderboardRecordsHaystack` (lines 665-856) over the resolved
expiry.  With an empty cursor: look up the owner's own record (absent
means an empty, error-free result), shortcut `limit = 1`, otherwise build
the two-sided window.  A non-empty cursor delegates to the paginated
listing. -/
def getLeaderboardRecordsHaystack (rankCache : RankCache) (ownerId : String)
    (limit : Nat) (leaderboardId : String) (cursor : String) (sortOrder : Nat)
    (expiryTime : Int) (table : List Row) : Except Err RecordList :=
  if cursor = "" then
    match findRow table leaderboardId ownerId expiryTime with
    | none =>
      .ok { records := [], ownerRecords := [], nextCursor := "", prevCursor := "" }
    | some ownerRow =>
      if limit = 1 then
        .ok { records := [{ rowToApi ownerRow with
                Rank := rankCache.get leaderboardId expiryTime ownerId }],
              ownerRecords := [], nextCursor := "", prevCursor := "" }
      else
        .ok (haystackEmptyCursor rankCache ownerId limit leaderboardId sortOrder
          expiryTime table ownerRow)
  else
    LeaderboardRecordsList rankCache sortOrder leaderboardId expiryTime
      (some limit) cursor [] table

/-- Counterexample to claim C6 at limit 0: owner "o" has a record, the
empty-cursor haystack call succeeds, yet the returned window is empty, so
the result does not contain the owner's record. -/
theorem haystack_limit_zero_counterexample :
    getLeaderboardRecordsHaystack rc0 "o" 0 "L" "" LeaderboardSortOrderDescending 0
        [mkRow "o" 10]
      = .ok { records := [], ownerRecords := [], nextCursor := "", prevCursor := "" }
    ∧ (findRow [mkRow "o" 10] "L" "o" 0).isSome = true := by
  constructor
  · decide
  · decide

theorem findRow_fields {table : List Row} {leaderboardId ownerId : String}
    {expiryTime : Int} {r : Row}
    (h : findRow table leaderboardId ownerId expiryTime = some r) :
    r.leaderboardId = leaderboardId ∧ r.ownerId = ownerId
      ∧ r.expiryTime = expiryTime := by
  unfold findRow at h
  have hp := List.find?_some h
  simp only [Bool.and_eq_true, beq_iff_eq] at hp
  exact ⟨hp.1.1, hp.1.2, hp.2⟩

theorem trimOver_length (lim : Nat) (l : List ApiRecord)
    (h : l.length ≤ lim + 1) : (trimOver lim l).length ≤ lim := by
  unfold trimOver
  split_ifs with h2
  · rw [List.length_dropLast]
    omega
  · omega

theorem haystackFirstRows_length (limit sortOrder : Nat) (base : List Row)
    (ownKey : Int × Int × String) :
    (haystackFirstRows limit sortOrder base ownKey).length ≤ limit + 1 := by
  unfold haystackFirstRows
  split_ifs <;> rw [List.length_take] <;> omega

theorem haystackSecondRows_length (secondLimit sortOrder : Nat)
    (base : List Row) (ownKey : Int × Int × String) :
    (haystackSecondRows secondLimit sortOrder base ownKey).length
      ≤ secondLimit + 1 := by
  unfold haystackSecondRows
  split_ifs <;> rw [List.length_take] <;> omega

theorem parseLeaderboardRecords_length (rows : List Row) :
    (parseLeaderboardRecords rows).length = rows.length := by
  unfold parseLeaderboardRecords
  rw [List.length_map]

theorem haystack_window_bounds (f s limit : Nat) (hlimit : 1 ≤ limit)
    (hf : f ≤ limit) (hs : s ≤ haystackSecondLimit limit f) :
    0 ≤ haystackStart f s limit
    ∧ haystackStart f s limit ≤ (f : Int)
    ∧ (f : Int) < haystackEnd f s limit
    ∧ haystackEnd f s limit ≤ (f : Int) + 1 + (s : Int)
    ∧ haystackEnd f s limit - haystackStart f s limit ≤ (limit : Int) := by
  unfold haystackSecondLimit at hs
  unfold haystackEnd haystackStart
  split_ifs at hs ⊢ <;> omega

theorem window_keeps_middle (first second : List ApiRecord) (own : ApiRecord)
    (limit : Nat) (hlimit : 1 ≤ limit) (hf : first.length ≤ limit)
    (hs : second.length ≤ haystackSecondLimit limit first.length) :
    (((first ++ own :: second).drop
        (haystackStart first.length second.length limit).toNat).take
      (haystackEnd first.length second.length limit
        - haystackStart first.length second.length limit).toNat).length ≤ limit
    ∧ own ∈ (((first ++ own :: second).drop
        (haystackStart first.length second.length limit).toNat).take
      (haystackEnd first.length second.length limit
        - haystackStart first.length second.length limit).toNat) := by
  obtain ⟨h0, hsf, hfe, hen, hlen⟩ :=
    haystack_window_bounds first.length second.length limit hlimit hf hs
  constructor
  · rw [List.length_take]
    omega
  · have hdrop : (first ++ own :: second).drop
        (haystackStart first.length second.length limit).toNat
        = first.drop (haystackStart first.length second.length limit).toNat
          ++ own :: second := by
      rw [List.drop_append_eq_append_drop]
      have hz : (haystackStart first.length second.length limit).toNat
          - first.length = 0 := by omega
      rw [hz, List.drop_zero]
    rw [hdrop, List.take_append_eq_append_take]
    apply List.mem_append_right
    have hlendrop : (first.drop
        (haystackStart first.length second.length limit).toNat).length
        = first.length - (haystackStart first.length second.length limit).toNat :=
      List.length_drop _ _
    rw [hlendrop]
    have hpos : 1 ≤ (haystackEnd first.length second.length limit
        - haystackStart first.length second.length limit).toNat
        - (first.length - (haystackStart first.length second.length limit).toNat) := by
      omega
    obtain ⟨m, hm⟩ := Nat.exists_eq_add_of_le hpos
    rw [hm, Nat.add_comm 1 m, List.take_succ_cons]
    exact List.mem_cons_self _ _

theorem haystackRecords_spec (rankCache : RankCache) (leaderboardId : String)
    (expiryTime : Int) (limit : Nat) (first second : List ApiRecord)
    (own : ApiRecord) (hlimit : 1 ≤ limit) (hf : first.length ≤ limit)
    (hs : second.length ≤ haystackSecondLimit limit first.length) :
    (haystackRecords rankCache leaderboardId expiryTime limit first second
        own).length ≤ limit
    ∧ ∃ r ∈ haystackRecords rankCache leaderboardId expiryTime limit first
        second own, r.OwnerId = own.OwnerId := by
  obtain ⟨hwl, hwm⟩ := window_keeps_middle first second own limit hlimit hf hs
  unfold haystackRecords
  constructor
  · rw [List.length_map]
    exact hwl
  · exact ⟨_, List.mem_map_of_mem _ hwm, rfl⟩

theorem haystackEmptyCursor_spec (rankCache : RankCache) (ownerId : String)
    (limit : Nat) (leaderboardId : String) (sortOrder : Nat) (expiryTime : Int)
    (table : List Row) (ownerRow : Row) (hlimit : 1 ≤ limit) :
    (haystackEmptyCursor rankCache ownerId limit leaderboardId sortOrder
        expiryTime table ownerRow).records.length ≤ limit
    ∧ ∃ r ∈ (haystackEmptyCursor rankCache ownerId limit leaderboardId sortOrder
        expiryTime table ownerRow).records, r.OwnerId = ownerRow.ownerId := by
  have hf : ((trimOver limit (parseLeaderboardRecords
      (haystackFirstRows limit sortOrder
        (table.filter (fun r => r.leaderboardId == leaderboardId
          && r.expiryTime == expiryTime))
        (ownerRow.score, ownerRow.subscore, ownerId)))).reverse).length ≤ limit := by
    rw [List.length_reverse]
    apply trimOver_length
    rw [parseLeaderboardRecords_length]
    exact haystackFirstRows_length _ _ _ _
  have hs : (trimOver (haystackSecondLimit limit
      ((trimOver limit (parseLeaderboardRecords
        (haystackFirstRows limit sortOrder
          (table.filter (fun r => r.leaderboardId == leaderboardId
            && r.expiryTime == expiryTime))
          (ownerRow.score, ownerRow.subscore, ownerId)))).reverse).length)
      (parseLeaderboardRecords
        (haystackSecondRows (haystackSecondLimit limit
          ((trimOver limit (parseLeaderboardRecords
            (haystackFirstRows limit sortOrder
              (table.filter (fun r => r.leaderboardId == leaderboardId
                && r.expiryTime == expiryTime))
              (ownerRow.score, ownerRow.subscore, ownerId)))).reverse).length)
          sortOrder
          (table.filter (fun r => r.leaderboardId == leaderboardId
            && r.expiryTime == expiryTime))
          (ownerRow.score, ownerRow.subscore, ownerId)))).length
      ≤ haystackSecondLimit limit
        ((trimOver limit (parseLeaderboardRecords
          (haystackFirstRows limit sortOrder
            (table.filter (fun r => r.leaderboardId == leaderboardId
              && r.expiryTime == expiryTime))
            (ownerRow.score, ownerRow.subscore, ownerId)))).reverse).length := by
    apply trimOver_length
    rw [parseLeaderboardRecords_length]
    exact haystackSecondRows_length _ _ _ _
  exact haystackRecords_spec rankCache leaderboardId expiryTime limit _ _
    (rowToApi ownerRow) hlimit hf hs

/-- Claim C6 (amended): for every empty-cursor haystack call with limit
at least 1, the call succeeds, returns at most `limit` records, and
contains a record of the owner exactly when the owner has a record at
`(leaderboard_id, owner_id, expiry)`; when the owner has none the call
returns the empty list and no error. -/
theorem haystack_contains_owner (rankCache : RankCache) (ownerId : String)
    (limit : Nat) (leaderboardId : String) (sortOrder : Nat) (expiryTime : Int)
    (table : List Row) (hlimit : 1 ≤ limit) :
    ∃ result : RecordList,
      getLeaderboardRecordsHaystack rankCache ownerId limit leaderboardId ""
          sortOrder expiryTime table = .ok result
      ∧ result.records.length ≤ limit
      ∧ ((result.records.any (fun r => r.OwnerId == ownerId)) = true
          ↔ (findRow table leaderboardId ownerId expiryTime).isSome = true)
      ∧ (findRow table leaderboardId ownerId expiryTime = none →
          result.records = []) := by
  cases hfind : findRow table leaderboardId ownerId expiryTime with
  | none =>
    refine ⟨{ records := [], ownerRecords := [], nextCursor := "",
              prevCursor := "" }, ?_, ?_, ?_, ?_⟩
    · unfold getLeaderboardRecordsHaystack
      rw [if_pos rfl, hfind]
    · simp
    · simp
    · intro _
      rfl
  | some ownerRow =>
    obtain ⟨hlb, hown, hexp⟩ := findRow_fields hfind
    by_cases h1 : limit = 1
    · subst h1
      refine ⟨{ records := [{ rowToApi ownerRow with
                              Rank := rankCache.get leaderboardId expiryTime ownerId }],
                ownerRecords := [], nextCursor := "", prevCursor := "" },
          ?_, ?_, ?_, ?_⟩
      · unfold getLeaderboardRecordsHaystack
        rw [if_pos rfl, hfind]
        rfl
      · simp
      · simp [rowToApi, hown]
      · intro hnone
        cases hnone
    · refine ⟨haystackEmptyCursor rankCache ownerId limit leaderboardId sortOrder
          expiryTime table ownerRow, ?_, ?_, ?_, ?_⟩
      · unfold getLeaderboardRecordsHaystack
        rw [if_pos rfl]
        simp only [hfind]
        rw [if_neg h1]
      · exact (haystackEmptyCursor_spec rankCache ownerId limit leaderboardId
          sortOrder expiryTime table ownerRow hlimit).1
      · constructor
        · intro _
          rfl
        · intro _
          obtain ⟨r, hrmem, hrown⟩ := (haystackEmptyCursor_spec rankCache ownerId
            limit leaderboardId sortOrder expiryTime table ownerRow hlimit).2
          refine List.any_eq_true.mpr ⟨r, hrmem, ?_⟩
          rw [hrown, hown]
          exact beq_self_eq_true ownerId
      · intro hnone
        cases hnone

/-- Witness for claim C6 (amended): a haystack of limit 3 around owner b
in the three-record store. -/
theorem haystack_contains_owner_witness :
    ∃ result : RecordList,
      getLeaderboardRecordsHaystack rc0 "b" 3 "L" ""
          LeaderboardSortOrderDescending 0 table3 = .ok result
      ∧ result.records.length ≤ 3
      ∧ ((result.records.any (fun r => r.OwnerId == "b")) = true
          ↔ (findRow table3 "L" "b" 0).isSome = true)
      ∧ (findRow table3 "L" "b" 0 = none → result.records = []) :=
  haystack_contains_owner rc0 "b" 3 "L" LeaderboardSortOrderDescending 0 table3
    (by decide)

end Nakama
